import Mathlib

/-!
Verification of the RNASEQ-QC-APP browser client.

The repository consists of four JavaScript files:
  * `frontend/main.js`    — upload form, run button, and the `pollStatus`
    self-rescheduling status poller together with `renderStatus`;
  * `frontend/report.js`  — the report page: `badgeClass`, `makeTableFromDict`,
    `findStage`, `renderCounts`, `renderPlots`/`renderImgList`, and `init`;
  * `frontend/plots.js`   — `makeArtifactUrl` and `renderFastqcSection`;
  * `backend/storage/uploads/sample/main.js` — a React variant (`App`) with its
    own `useInterval` poller and `onUpload` handler.

Each definition below is a shallow embedding of one of these source functions:
DOM mutation is modelled by explicit state records, `fetch`/`res.json()`
outcomes by small response inductive types, an `await` that rejects inside a
handler with no `try`/`catch` by a `thrown` flag, and JavaScript strings by
`String` or by lists of characters / Unicode code points where character-level
reasoning is needed.
-/

namespace RnaseqQC

/-! ## JavaScript string helpers -/

/-- Model of the JavaScript idiom `v || d` for strings: the only falsy string
is the empty string, so an empty `v` yields the default `d`. -/
def jsOrString (v d : String) : String := if v = "" then d else v

/-- Model of `String.prototype.split(":")` on a list of characters: splits the
list at every `:` character; the separator characters are dropped and empty
segments are kept, so `"".split(":")` is `[""]` and `"a:".split(":")` is
`["a", ""]`. -/
def jsSplitOnColon : List Char → List (List Char)
  | [] => [[]]
  | c :: rest =>
    if c = ':' then [] :: jsSplitOnColon rest
    else
      match jsSplitOnColon rest with
      | seg :: segs => (c :: seg) :: segs
      | [] => [[c]]

/-! ## Percent-encoding (`encodeURIComponent`) and its inverse

`frontend/plots.js` line 18 and the various `encodeURIComponent(...)` call
sites in `frontend/report.js` embed artifact paths into retrieval URLs.  A
JavaScript string is modelled as its list of Unicode code points (`List Nat`);
the produced URL component is likewise a list of character codes.
`encodeURIComponent` leaves the unreserved characters
`A–Z a–z 0–9 - _ . ! ~ * ( )` and the apostrophe (code 39) unchanged and
replaces every other character by the `%XX` (uppercase hex) encoding of each of
its UTF-8 bytes. -/

/-- The characters `encodeURIComponent` leaves unescaped, by code point:
digits, upper and lower case ASCII letters, and `- _ . ! ~ * ( )` together
with code 39 (the apostrophe). -/
def uriUnreserved (c : Nat) : Bool :=
  (48 ≤ c && c ≤ 57) || (65 ≤ c && c ≤ 90) || (97 ≤ c && c ≤ 122) ||
  (c == 45) || (c == 95) || (c == 46) || (c == 33) || (c == 126) ||
  (c == 42) || (c == 39) || (c == 40) || (c == 41)

/-- Uppercase hexadecimal digit character code for a value below 16. -/
def hexDigitCode (n : Nat) : Nat := if n < 10 then 48 + n else 55 + n

/-- Value of a hexadecimal digit character code (both letter cases accepted,
as by `decodeURIComponent`). -/
def hexDigitVal (c : Nat) : Option Nat :=
  if 48 ≤ c ∧ c ≤ 57 then some (c - 48)
  else if 65 ≤ c ∧ c ≤ 70 then some (c - 55)
  else if 97 ≤ c ∧ c ≤ 102 then some (c - 87)
  else none

/-- UTF-8 encoding of a single Unicode code point as its list of bytes. -/
def utf8EncodeChar (c : Nat) : List Nat :=
  if c < 128 then [c]
  else if c < 2048 then [192 + c / 64, 128 + c % 64]
  else if c < 65536 then [224 + c / 4096, 128 + (c / 64) % 64, 128 + c % 64]
  else [240 + c / 262144, 128 + (c / 4096) % 64, 128 + (c / 64) % 64, 128 + c % 64]

/-- The `%XX` escape (code-point list) of a single byte, uppercase hex. -/
def percentEscapeByte (b : Nat) : List Nat :=
  [37, hexDigitCode (b / 16), hexDigitCode (b % 16)]

/-- Model of JavaScript `encodeURIComponent`: unreserved code points pass
through, every other code point contributes the `%XX` escapes of its UTF-8
bytes. -/
def encodeURIComponent (s : List Nat) : List Nat :=
  s.flatMap fun c =>
    if uriUnreserved c then [c]
    else (utf8EncodeChar c).flatMap percentEscapeByte

/-- First stage of percent-decoding: turn a character-code list into the byte
list it denotes, reading `%hh` as one byte and any other character as its own
code.  Malformed escapes yield `none`. -/
def percentDecodeBytes : List Nat → Option (List Nat)
  | [] => some []
  | c :: rest =>
    if c = 37 then
      match rest with
      | h :: l :: rest2 =>
        match hexDigitVal h, hexDigitVal l with
        | some hv, some lv => (percentDecodeBytes rest2).map fun t => (16 * hv + lv) :: t
        | _, _ => none
      | _ => none
    else (percentDecodeBytes rest).map fun t => c :: t

/-- Second stage of percent-decoding: UTF-8 decode a byte list into code
points; ill-formed sequences yield `none`. -/
def utf8DecodeBytes : List Nat → Option (List Nat)
  | [] => some []
  | b0 :: rest =>
    if b0 < 128 then (utf8DecodeBytes rest).map fun cs => b0 :: cs
    else if b0 < 192 then none
    else if b0 < 224 then
      match rest with
      | b1 :: rest2 =>
        if b1 / 64 = 2 then
          (utf8DecodeBytes rest2).map fun cs => ((b0 - 192) * 64 + (b1 - 128)) :: cs
        else none
      | [] => none
    else if b0 < 240 then
      match rest with
      | b1 :: b2 :: rest3 =>
        if b1 / 64 = 2 ∧ b2 / 64 = 2 then
          (utf8DecodeBytes rest3).map fun cs =>
            ((b0 - 224) * 4096 + (b1 - 128) * 64 + (b2 - 128)) :: cs
        else none
      | _ => none
    else if b0 < 248 then
      match rest with
      | b1 :: b2 :: b3 :: rest4 =>
        if b1 / 64 = 2 ∧ b2 / 64 = 2 ∧ b3 / 64 = 2 then
          (utf8DecodeBytes rest4).map fun cs =>
            ((b0 - 240) * 262144 + (b1 - 128) * 4096 + (b2 - 128) * 64 + (b3 - 128)) :: cs
        else none
      | _ => none
    else none

/-- Model of JavaScript `decodeURIComponent`: percent-unescape to bytes, then
UTF-8 decode. -/
def decodeURIComponent (u : List Nat) : Option (List Nat) :=
  (percentDecodeBytes u).bind utf8DecodeBytes

/-- Embedding of `makeArtifactUrl` from `frontend/plots.js` lines 17–19:
`` `${base}/api/artifact?path=${encodeURIComponent(p)}` ``.  The URL is the
list of character codes of the base, the literal template, and the encoded
path. -/
def makeArtifactUrl (base : List Nat) (p : List Nat) : List Nat :=
  base ++ ("/api/artifact?path=".toList.map Char.toNat) ++ encodeURIComponent p

/-- `encodeURIComponent` on Lean `String`s (used by the report-page renderers,
which assemble whole HTML strings).  The encoder only ever emits ASCII codes,
so mapping back through `Char.ofNat` is faithful. -/
def encodeURIComponentS (s : String) : String :=
  String.mk ((encodeURIComponent (s.toList.map Char.toNat)).map Char.ofNat)

/-! ## Data model (spec §3, shapes used by the handlers) -/

/-- A `Sample` as returned by the upload endpoint: display name and uploaded
file names. -/
structure Sample where
  name : String
  files : List String
deriving DecidableEq

/-- The `job` object consumed by `pollStatus`/`renderStatus` in
`frontend/main.js`: only `progress` and `status` are inspected there. -/
structure Job where
  progress : Int
  status : Option String
deriving DecidableEq

/-- Outcome of one `fetch` + `res.json()` pair for the status endpoint:
the promise chain rejects (`transportError`), or the JSON payload carries
`ok:false` with an error message, or `ok:true` with a job snapshot. -/
inductive StatusResponse where
  | transportError
  | failure (error : String)
  | success (job : Job)
deriving DecidableEq

/-- The module-level state of `frontend/main.js` together with the DOM it
writes: `currentSample`/`currentJob` (lines 4–5), the `#status` element
(modelled as the job snapshot it displays), the `#bar` width style, and the
`#run-btn` disabled flag. -/
structure ClientState where
  currentSample : Option Sample
  currentJob : Option String
  displayedSnapshot : Option Job
  barWidth : String
  runBtnEnabled : Bool
deriving DecidableEq

/-- Observable effects of one `pollStatus` invocation: whether a status
request was issued, how many further polls were scheduled via `setTimeout`,
and whether the handler ended in an uncaught rejection. -/
structure PollEffects where
  requested : Bool
  scheduledPolls : Nat
  thrown : Bool
deriving DecidableEq

/-- Embedding of `renderStatus` (`frontend/main.js` lines 108–115): rewrites
the `#status` JSON view with the whole snapshot and sets the `#bar` width to
`` `${job.progress}%` ``. -/
def renderStatus (job : Job) (st : ClientState) : ClientState :=
  { st with displayedSnapshot := some job, barWidth := toString job.progress ++ "%" }

/-- Embedding of `pollStatus` (`frontend/main.js` lines 72–86).  With no
current job it returns immediately.  Otherwise a status request is issued and
the function continues with the response: a rejected promise propagates
(no `try`/`catch` in the source); `ok:false` returns with nothing rendered;
`ok:true` renders the snapshot and schedules one further poll via
`setTimeout(pollStatus, 2000)` exactly when `job.progress < 100`. -/
def pollStatus (st : ClientState) (resp : StatusResponse) : ClientState × PollEffects :=
  match st.currentJob with
  | none => (st, ⟨false, 0, false⟩)
  | some _ =>
    match resp with
    | .transportError => (st, ⟨true, 0, true⟩)
    | .failure _ => (st, ⟨true, 0, false⟩)
    | .success job =>
      if job.progress < 100 then (renderStatus job st, ⟨true, 1, false⟩)
      else (renderStatus job st, ⟨true, 0, false⟩)

/-- Outcome of one `fetch` + `res.json()` pair for the upload endpoint. -/
inductive UploadResponse where
  | transportError
  | failure (error : String)
  | success (sample : Sample)
deriving DecidableEq

/-- Observable effects of the upload submit handler: alerts raised, whether
the upload request was issued, the `sample_name` form field sent with it, and
whether the handler ended in an uncaught rejection. -/
structure UploadEffects where
  alerts : List String
  requested : Bool
  sentSampleName : Option String
  thrown : Bool
deriving DecidableEq

/-- Embedding of the `#upload-form` submit handler (`frontend/main.js` lines
10–40).  `name` is `sample-name`.value `|| "sample"`; with no chosen files it
alerts and returns; otherwise it posts the form and continues with the
response: a rejected `fetch`/`json()` propagates (no `try`/`catch`);
`ok:false` alerts `"Upload error: " + error`; `ok:true` stores the sample and
enables the run button. -/
def uploadSubmit (st : ClientState) (filesCount : Nat) (rawName : String)
    (resp : UploadResponse) : ClientState × UploadEffects :=
  let name := jsOrString rawName "sample"
  if filesCount = 0 then
    (st, ⟨["Please choose FASTQ files."], false, none, false⟩)
  else
    match resp with
    | .transportError => (st, ⟨[], true, some name, true⟩)
    | .failure err => (st, ⟨["Upload error: " ++ err], true, some name, false⟩)
    | .success s =>
      ({ st with currentSample := some s, runBtnEnabled := true },
       ⟨[], true, some name, false⟩)

/-- Observable effects of the React `onUpload` handler in
`backend/storage/uploads/sample/main.js` lines 76–86: the `sample_name` field
appended to the form and whether the handler ended in an uncaught rejection. -/
structure AppUploadEffects where
  sentSampleName : String
  thrown : Bool
deriving DecidableEq

/-- Embedding of `onUpload` (`backend/storage/uploads/sample/main.js` lines
76–86): always posts, with `sample_name` = input value `|| 'sample'`; on
`ok:true` stores the sample and moves the UI state to `"uploaded"`, on
`ok:false` does nothing, and a rejected promise propagates. -/
def onUpload (rawName : String) (resp : UploadResponse)
    (prevSample : Option Sample) (prevUi : String) :
    (Option Sample × String) × AppUploadEffects :=
  match resp with
  | .transportError => ((prevSample, prevUi), ⟨jsOrString rawName "sample", true⟩)
  | .failure _ => ((prevSample, prevUi), ⟨jsOrString rawName "sample", false⟩)
  | .success s => ((some s, "uploaded"), ⟨jsOrString rawName "sample", false⟩)

/-! ## Report page (`frontend/report.js`) -/

/-- An artifact record as consumed by `renderCounts`/`renderPlots`: a kind tag
and an opaque path. -/
structure RArtifact where
  kind : String
  path : String
deriving DecidableEq

/-- A stage record as consumed by `findStage` and the QC renderers.  `metrics`
is `none` when the JSON object has no `metrics` field; values are modelled by
the strings their interpolation produces. -/
structure RStage where
  name : String
  metrics : Option (List (String × String))
  artifact : Option String
deriving DecidableEq

/-- The full job record fetched by the report page (`GET /api/runs/{id}`). -/
structure RJob where
  id : String
  created_at : Option String
  progress : Option Int
  status : Option String
  sample : Option Sample
  stages : Option (List RStage)
  artifacts : Option (List RArtifact)
deriving DecidableEq

/-- Model of `String.prototype.toLowerCase` by its character-wise ASCII case
mapping (`Char.toLower` lowers exactly `A`–`Z`); the status values compared
against are ASCII. -/
def jsToLowerCase (s : String) : String := String.mk (s.toList.map Char.toLower)

/-- Embedding of `badgeClass` (`frontend/report.js` lines 18–23):
`(status || "").toLowerCase()` then the three-way comparison.  A missing
status is `none`. -/
def badgeClass (status : Option String) : String :=
  let s := jsToLowerCase (status.getD "")
  if s = "finished" then "badge finished"
  else if s = "failed" then "badge failed"
  else "badge running"

/-- The empty-metrics placeholder emitted by `makeTableFromDict`. -/
def noMetricsPlaceholder : String :=
  "<p style=\x27font-size:0.85rem;color:#9ca3af\x27>No metrics recorded.</p>"

/-- Embedding of `makeTableFromDict` (`frontend/report.js` lines 43–54):
`Object.entries(dict || {})`; an empty entry list yields the placeholder,
otherwise a two-column table. -/
def makeTableFromDict (dict : Option (List (String × String))) : String :=
  let entries := dict.getD []
  if entries.isEmpty then noMetricsPlaceholder
  else
    "<table><thead><tr><th>Metric</th><th>Value</th></tr></thead><tbody>"
      ++ String.join (entries.map fun kv =>
          "<tr><td>" ++ kv.1 ++ "</td><td>" ++ kv.2 ++ "</td></tr>")
      ++ "</tbody></table>"

/-- Embedding of `findStage` (`frontend/report.js` lines 56–58):
`(job.stages || []).find(s => s.name === name)`. -/
def findStage (job : RJob) (name : String) : Option RStage :=
  (job.stages.getD []).find? fun s => s.name = name

/-- The `Open full FastQC HTML` link paragraph appended after a stage table
when the stage has an artifact (whitespace of the template literal elided). -/
def artifactOpenLinkHtml (apiBase text path : String) : String :=
  "<p style=\x22margin-top:0.5rem;font-size:0.8rem;\x22><a href=\x22" ++ apiBase
    ++ "/artifact?path=" ++ encodeURIComponentS path
    ++ "\x22 target=\x22_blank\x22>" ++ text ++ "</a></p>"

/-- The `#preFastqcTable` innerHTML built by `renderQCSummary`
(`frontend/report.js` lines 69–78): `makeTableFromDict(preStage?.metrics ||
{})`, then the FastQC link when `preStage?.artifact` is set.  An absent
`metrics` field falls back to the empty object; an empty object itself is
truthy and is kept. -/
def preFastqcTableHtml (apiBase : String) (job : RJob) : String :=
  let preStage := findStage job "pre_fastqc"
  let base := makeTableFromDict (some ((preStage.bind RStage.metrics).getD []))
  match preStage.bind RStage.artifact with
  | some art => base ++ artifactOpenLinkHtml apiBase "Open full FastQC HTML" art
  | none => base

/-- The missing-counts placeholder emitted by `renderCounts`. -/
def noCountsPlaceholder : String :=
  "<span style=\x27font-size:0.85rem;color:#9ca3af\x27>No counts table found.</span>"

/-- The `#countsLinks` innerHTML built by `renderCounts` (`frontend/report.js`
lines 149–167): a download link for the `counts_table` artifact when present,
the placeholder otherwise. -/
def renderCountsLinks (apiBase : String) (job : RJob) : String :=
  let artifacts := job.artifacts.getD []
  match artifacts.find? (fun a => a.kind = "counts_table") with
  | some art =>
    "<a href=\x22" ++ apiBase ++ "/artifact?path=" ++ encodeURIComponentS art.path
      ++ "\x22 target=\x22_blank\x22>Download counts table (featureCounts)</a>"
  | none => noCountsPlaceholder

/-- The label computation of `renderImgList` (`frontend/report.js` line 186):
`a.kind.split(":", 2)[1] || a.kind` — the second element of the limit-2 split,
with the whole kind as fallback when it is missing or empty. -/
def splitLabel (kind : List Char) : List Char :=
  match ((jsSplitOnColon kind).take 2)[1]? with
  | some s => if s = [] then kind else s
  | none => kind

/-- `splitLabel` on Lean strings, for the HTML-assembling renderers. -/
def kindSubLabel (kind : String) : String := String.mk (splitLabel kind.toList)

/-- The key computation of `renderFastqcSection` (`frontend/plots.js` line
27): `a.kind.split(":")[1] || "plot"` — fallback is the constant `"plot"`,
not the kind itself. -/
def plotsKindKey (kind : List Char) : List Char :=
  match (jsSplitOnColon kind)[1]? with
  | some s => if s = [] then "plot".toList else s
  | none => "plot".toList

/-- The sub-label the spec describes: split the kind on the `:` delimiter and
take the part after it, falling back to the full kind string only when there
is no delimiter.  Stated from the spec wording, to compare against
`splitLabel`, the function the source implements. -/
def specSubLabel (kind : List Char) : List Char :=
  if ':' ∈ kind then (kind.dropWhile (fun c => c != ':')).drop 1 else kind

/-- The empty-gallery placeholder emitted by `renderImgList`. -/
def noPlotsPlaceholder : String :=
  "<p style=\x27font-size:0.85rem;color:#9ca3af\x27>No plots recorded.</p>"

/-- Embedding of `renderImgList` (`frontend/report.js` lines 178–194): an
empty artifact list yields the placeholder, otherwise the joined `<figure>`
markup (whitespace of the template literal elided). -/
def renderImgListHtml (apiBase : String) (list : List RArtifact) : String :=
  if list.isEmpty then noPlotsPlaceholder
  else
    String.join (list.map fun a =>
      let label := kindSubLabel a.kind
      let url := apiBase ++ "/artifact?path=" ++ encodeURIComponentS a.path
      "<figure><img src=\x22" ++ url ++ "\x22 alt=\x22" ++ label
        ++ "\x22 /><figcaption>" ++ label ++ "</figcaption></figure>")

/-- Outcome of the report page's `fetch` + `res.json()` pair for
`GET /api/runs/{id}`: the fetch promise rejects, or the HTTP status is not ok,
or `res.json()` rejects, or a job record is obtained. -/
inductive RunsResponse where
  | networkError
  | httpError (status : Nat)
  | jsonError
  | success (job : RJob)
deriving DecidableEq

/-- Observable outcome of `init` on the report page: the message written to
`#errorBox` (if any), whether the render functions ran, and whether `init`
ended in an uncaught rejection. -/
structure ReportEffects where
  errorShown : Option String
  rendered : Bool
  thrown : Bool
deriving DecidableEq

/-- Embedding of `init` (`frontend/report.js` lines 200–223).  A missing
`job_id` query parameter shows an error and returns; otherwise the run record
is fetched inside `try`/`catch`: a non-ok HTTP status shows
`"Failed to load run: HTTP " + status`, a rejected `fetch` or `res.json()` is
caught and shows the generic message, and a job record is rendered. -/
def reportInit (jobId : Option String) (resp : RunsResponse) : ReportEffects :=
  match jobId with
  | none =>
    ⟨some "Missing job_id in URL. Example: report.html?job_id=YOUR_JOB_ID", false, false⟩
  | some _ =>
    match resp with
    | .networkError => ⟨some "Error fetching report. See console for details.", false, false⟩
    | .httpError status =>
      ⟨some ("Failed to load run: HTTP " ++ toString status), false, false⟩
    | .jsonError => ⟨some "Error fetching report. See console for details.", false, false⟩
    | .success _ => ⟨none, true, false⟩

/-! ## Claims C3, C4, C8: the status poller -/

/-- C3: when a status poll returns a response with `ok` equal to `false`, the
poller leaves the previously rendered snapshot and progress bar unchanged and
does not schedule any further poll. -/
theorem pollStatus_failure_preserves_state (st : ClientState) (err : String) :
    (pollStatus st (.failure err)).1 = st ∧
    (pollStatus st (.failure err)).2.scheduledPolls = 0 ∧
    (pollStatus st (.failure err)).2.thrown = false := by
  cases h : st.currentJob <;> simp [pollStatus, h]

/-- C4: when a status poll returns `ok:true` with `progress` 45 and `status`
"running", the poller replaces the displayed snapshot, sets the progress bar
width to `"45%"`, and schedules exactly one further poll. -/
theorem pollStatus_running45_schedules_one (st : ClientState) (jid : String)
    (h : st.currentJob = some jid) :
    (pollStatus st (.success ⟨45, some "running"⟩)).1.displayedSnapshot
        = some ⟨45, some "running"⟩ ∧
    (pollStatus st (.success ⟨45, some "running"⟩)).1.barWidth = "45%" ∧
    (pollStatus st (.success ⟨45, some "running"⟩)).2.scheduledPolls = 1 := by
  have h45 : ((45 : Int) < 100) = True := by simp
  simp [pollStatus, h, renderStatus, h45]
  decide

/-- Witness for C4 at a concrete client state. -/
theorem pollStatus_running45_schedules_one_witness :
    (pollStatus ⟨none, some "job-1", none, "", false⟩
        (.success ⟨45, some "running"⟩)).2.scheduledPolls = 1 :=
  (pollStatus_running45_schedules_one ⟨none, some "job-1", none, "", false⟩ "job-1" rfl).2.2

/-- C8: if the current job identifier is `null`, invoking the poller performs
no network request, renders nothing, and leaves all client state unchanged. -/
theorem pollStatus_noJob_noop (st : ClientState) (resp : StatusResponse)
    (h : st.currentJob = none) :
    pollStatus st resp = (st, ⟨false, 0, false⟩) := by
  simp [pollStatus, h]

/-- Witness for C8 at a concrete client state. -/
theorem pollStatus_noJob_noop_witness :
    pollStatus ⟨none, none, some ⟨10, some "running"⟩, "10%", false⟩ .transportError
      = (⟨none, none, some ⟨10, some "running"⟩, "10%", false⟩, ⟨false, 0, false⟩) :=
  pollStatus_noJob_noop _ _ rfl

/-! ## Claim C9: the default sample name -/

/-- C9: in both upload handlers, an empty sample-name input sends the
`sample_name` field `"sample"`, and a nonempty input is sent unchanged. -/
theorem uploadHandlers_default_sample_name (st : ClientState) (n : Nat)
    (raw : String) (resp : UploadResponse) (ps : Option Sample) (ui : String)
    (hn : n ≠ 0) :
    (uploadSubmit st n raw resp).2.sentSampleName = some (jsOrString raw "sample") ∧
    (onUpload raw resp ps ui).2.sentSampleName = jsOrString raw "sample" ∧
    (raw = "" → jsOrString raw "sample" = "sample") ∧
    (raw ≠ "" → jsOrString raw "sample" = raw) := by
  refine ⟨?_, ?_, ?_, ?_⟩
  · cases resp <;> simp [uploadSubmit, hn]
  · cases resp <;> simp [onUpload]
  · intro h; simp [jsOrString, h]
  · intro h; simp [jsOrString, h]

/-- Witness for C9: with an empty name input, both handlers send `"sample"`. -/
theorem uploadHandlers_default_sample_name_witness :
    (uploadSubmit ⟨none, none, none, "", false⟩ 2 "" .transportError).2.sentSampleName
        = some "sample" ∧
    (onUpload "" .transportError none "idle").2.sentSampleName = "sample" := by
  have h := uploadHandlers_default_sample_name ⟨none, none, none, "", false⟩ 2 ""
    .transportError none "idle" (by decide)
  exact ⟨by rw [h.1, h.2.2.1 rfl], by rw [h.2.1, h.2.2.1 rfl]⟩

/-! ## Claim C10: the status badge mapping -/

/-- C10: `badgeClass` is total and case-insensitive — every status value
(including a missing one) maps to exactly one of the three badge classes,
case-variants of "finished"/"failed" map to their badge, and everything else
maps to "badge running". -/
theorem badgeClass_total_case_insensitive (status : Option String) :
    (badgeClass status = "badge finished" ∨ badgeClass status = "badge failed" ∨
      badgeClass status = "badge running") ∧
    (∀ s, status = some s → jsToLowerCase s = "finished" →
      badgeClass status = "badge finished") ∧
    (∀ s, status = some s → jsToLowerCase s = "failed" →
      badgeClass status = "badge failed") ∧
    (status = none → badgeClass status = "badge running") ∧
    (∀ s, status = some s → jsToLowerCase s ≠ "finished" → jsToLowerCase s ≠ "failed" →
      badgeClass status = "badge running") := by
  refine ⟨?_, ?_, ?_, ?_, ?_⟩
  · simp only [badgeClass]
    split_ifs <;> simp
  · intro s hs h; subst hs; simp [badgeClass, h]
  · intro s hs h; subst hs; simp [badgeClass, h]
  · intro h; subst h; decide
  · intro s hs h1 h2; subst hs; simp [badgeClass, h1, h2]

/-- Witness for C10: an uppercase status maps to its badge. -/
theorem badgeClass_total_case_insensitive_witness :
    badgeClass (some "FINISHED") = "badge finished" :=
  (badgeClass_total_case_insensitive (some "FINISHED")).2.1 "FINISHED" rfl (by decide)

/-! ## Claim C5: empty-state placeholders -/

/-- C5: an absent stage or an empty metrics mapping renders the empty-state
placeholder, and a missing artifact kind renders its placeholder; all the
renderers are total functions (nothing throws). -/
theorem renderers_empty_state_placeholders (apiBase : String) (job : RJob) :
    (findStage job "pre_fastqc" = none →
      preFastqcTableHtml apiBase job = noMetricsPlaceholder) ∧
    (∀ st, findStage job "pre_fastqc" = some st →
      (st.metrics = none ∨ st.metrics = some []) → st.artifact = none →
      preFastqcTableHtml apiBase job = noMetricsPlaceholder) ∧
    ((job.artifacts.getD []).find? (fun a => a.kind = "counts_table") = none →
      renderCountsLinks apiBase job = noCountsPlaceholder) ∧
    renderImgListHtml apiBase [] = noPlotsPlaceholder ∧
    makeTableFromDict (some []) = noMetricsPlaceholder := by
  refine ⟨?_, ?_, ?_, rfl, rfl⟩
  · intro h; simp [preFastqcTableHtml, h, makeTableFromDict]
  · intro stg hstg hm ha
    rcases hm with hm | hm <;>
      simp [preFastqcTableHtml, hstg, hm, ha, makeTableFromDict]
  · intro h; simp [renderCountsLinks, h]

/-- Witness for C5: a job whose `pre_fastqc` stage has empty metrics and no
artifact, and which has no `counts_table` artifact, renders both
placeholders. -/
theorem renderers_empty_state_placeholders_witness :
    preFastqcTableHtml "http://h:5050/api"
        ⟨"j1", none, some 100, some "finished", none,
          some [⟨"pre_fastqc", some [], none⟩], some []⟩ = noMetricsPlaceholder ∧
    renderCountsLinks "http://h:5050/api"
        ⟨"j1", none, some 100, some "finished", none,
          some [⟨"pre_fastqc", some [], none⟩], some []⟩ = noCountsPlaceholder := by
  have h := renderers_empty_state_placeholders "http://h:5050/api"
    ⟨"j1", none, some 100, some "finished", none,
      some [⟨"pre_fastqc", some [], none⟩], some []⟩
  exact ⟨h.2.1 ⟨"pre_fastqc", some [], none⟩ (by decide) (Or.inr rfl) rfl, h.2.2.1 (by decide)⟩

/-! ## Claim C1: when polling stops -/

/-- C1 counterexample: a snapshot with terminal status `"failed"` but progress
50 does not stop polling — `pollStatus` schedules one further poll, because
the source only tests `job.progress < 100` and never the status. -/
theorem pollStatus_terminal_status_still_polls :
    (Job.mk 50 (some "failed")).status = some "failed" ∧
    ¬ (50 : Int) ≥ 100 ∧
    (pollStatus ⟨none, some "job-1", none, "", false⟩
        (.success ⟨50, some "failed"⟩)).2.scheduledPolls = 1 := by
  refine ⟨rfl, by decide, ?_⟩
  decide

/-- C1 amended: for every snapshot successfully received by `pollStatus`, a
further poll is scheduled if and only if progress is below 100; a terminal
status alone does not stop polling. -/
theorem pollStatus_stops_iff_progress_complete (st : ClientState) (jid : String)
    (job : Job) (h : st.currentJob = some jid) :
    (pollStatus st (.success job)).2.scheduledPolls = 0 ↔ 100 ≤ job.progress := by
  by_cases hp : job.progress < 100
  · simp [pollStatus, h, hp]
  · simp [pollStatus, h, hp]
    omega

/-- Witness for the amended C1: progress 100 stops polling. -/
theorem pollStatus_stops_iff_progress_complete_witness :
    (pollStatus ⟨none, some "job-1", none, "", false⟩
        (.success ⟨100, some "finished"⟩)).2.scheduledPolls = 0 :=
  (pollStatus_stops_iff_progress_complete ⟨none, some "job-1", none, "", false⟩
    "job-1" ⟨100, some "finished"⟩ rfl).mpr (by decide)

/-! ## Claim C7: failure handling -/

/-- C7 counterexample: a transport failure in the upload submit handler of
`frontend/main.js` (which has no `try`/`catch`) escalates into an uncaught
rejection and produces no visible message at all. -/
theorem uploadSubmit_transport_failure_uncaught :
    (uploadSubmit ⟨none, none, none, "", false⟩ 2 "s" .transportError).2.thrown = true ∧
    (uploadSubmit ⟨none, none, none, "", false⟩ 2 "s" .transportError).2.alerts = [] :=
  ⟨rfl, rfl⟩

/-- C7 amended: on the report page, `init` never ends in an uncaught
rejection and every non-rendering outcome shows a visible inline error; in
the upload handler, an application-level `ok:false` failure shows a visible
alert without an exception — but a transport failure there escalates into an
uncaught rejection with no visible message. -/
theorem errorHandling_report_visible_upload_partial (jobId : Option String)
    (resp : RunsResponse) (st : ClientState) (n : Nat) (raw : String)
    (err : String) (hn : n ≠ 0) :
    (reportInit jobId resp).thrown = false ∧
    ((reportInit jobId resp).rendered = false →
      (reportInit jobId resp).errorShown.isSome) ∧
    (uploadSubmit st n raw (.failure err)).2.thrown = false ∧
    (uploadSubmit st n raw (.failure err)).2.alerts = ["Upload error: " ++ err] ∧
    (uploadSubmit st n raw .transportError).2.thrown = true ∧
    (uploadSubmit st n raw .transportError).2.alerts = [] := by
  refine ⟨?_, ?_, ?_, ?_, ?_, ?_⟩ <;>
    first
      | (cases jobId <;> cases resp <;> simp [reportInit])
      | simp [uploadSubmit, hn]

/-- Witness for the amended C7 at concrete inputs. -/
theorem errorHandling_report_visible_upload_partial_witness :
    (reportInit (some "j1") (.httpError 404)).errorShown.isSome ∧
    (uploadSubmit ⟨none, none, none, "", false⟩ 1 "s" (.failure "bad")).2.alerts
      = ["Upload error: " ++ "bad"] := by
  have h := errorHandling_report_visible_upload_partial (some "j1") (.httpError 404)
    ⟨none, none, none, "", false⟩ 1 "s" "bad" (by decide)
  exact ⟨h.2.1 rfl, h.2.2.2.1⟩

/-! ## Claim C6: the artifact-kind sub-label -/

theorem jsSplitOnColon_ne_nil (l : List Char) : jsSplitOnColon l ≠ [] := by
  induction l with
  | nil => simp [jsSplitOnColon]
  | cons c rest ih =>
    by_cases hc : c = ':'
    · simp [jsSplitOnColon, hc]
    · simp only [jsSplitOnColon, if_neg hc]
      rcases h : jsSplitOnColon rest with _ | ⟨seg, segs⟩ <;> simp

theorem jsSplitOnColon_head (l : List Char) :
    (jsSplitOnColon l).head? = some (l.takeWhile fun c => c != ':') := by
  induction l with
  | nil => rfl
  | cons c rest ih =>
    by_cases hc : c = ':'
    · simp [jsSplitOnColon, hc, List.takeWhile]
    · rcases h : jsSplitOnColon rest with _ | ⟨seg, segs⟩
      · exact absurd h (jsSplitOnColon_ne_nil rest)
      · rw [h] at ih
        have hseg : seg = rest.takeWhile (fun c => c != ':') := by simpa using ih
        have hcb : (c != ':') = true := by simp [hc]
        simp [jsSplitOnColon, hc, h, List.takeWhile_cons, hcb, hseg]

theorem jsSplitOnColon_no_colon (l : List Char) (h : ':' ∉ l) :
    jsSplitOnColon l = [l] := by
  induction l with
  | nil => rfl
  | cons c rest ih =>
    have hc : c ≠ ':' := fun e => h (by simp [e])
    have h' : ':' ∉ rest := fun hx => h (List.mem_cons_of_mem _ hx)
    simp [jsSplitOnColon, hc, ih h']

theorem jsSplitOnColon_append_colon (pre post : List Char) (h : ':' ∉ pre) :
    jsSplitOnColon (pre ++ ':' :: post) = pre :: jsSplitOnColon post := by
  induction pre with
  | nil => simp [jsSplitOnColon]
  | cons c pre ih =>
    have hc : c ≠ ':' := fun e => h (by simp [e])
    have h' : ':' ∉ pre := fun hx => h (List.mem_cons_of_mem _ hx)
    simp [jsSplitOnColon, hc, ih h']

/-- C6 counterexample: the kind `"x:"` contains the delimiter, the part after
it is empty, and the code displays the full kind `"x:"` rather than the empty
sub-label the claim prescribes — `splitLabel` disagrees with the
claim-described `specSubLabel` at this input. -/
theorem splitLabel_empty_segment_cex :
    (':' ∈ "x:".toList) ∧
    splitLabel "x:".toList = "x:".toList ∧
    splitLabel "x:".toList ≠ specSubLabel "x:".toList := by
  refine ⟨by decide, by decide, by decide⟩

/-- C6 amended: for a kind without the `:` delimiter the sub-label is the full
kind (and the `plots.js` variant falls back to the constant `"plot"`); for a
kind `pre ++ ":" ++ post` (first delimiter shown), the sub-label is the
segment of `post` before the next delimiter when that segment is non-empty,
and falls back to the full kind when it is empty. -/
theorem splitLabel_characterization (kind : List Char) :
    (':' ∉ kind → splitLabel kind = kind ∧ plotsKindKey kind = "plot".toList) ∧
    (∀ pre post, ':' ∉ pre → kind = pre ++ ':' :: post →
      splitLabel kind =
        (if post.takeWhile (fun c => c != ':') = [] then kind
         else post.takeWhile fun c => c != ':')) := by
  constructor
  · intro h
    simp [splitLabel, plotsKindKey, jsSplitOnColon_no_colon kind h]
  · intro pre post hpre hk
    subst hk
    rcases hsplit : jsSplitOnColon post with _ | ⟨s0, segs⟩
    · exact absurd hsplit (jsSplitOnColon_ne_nil post)
    · have hs0 : s0 = post.takeWhile fun c => c != ':' := by
        have := jsSplitOnColon_head post
        rw [hsplit] at this
        simpa using this
      simp only [splitLabel, jsSplitOnColon_append_colon pre post hpre, hsplit]
      simp [hs0]

/-- Witness for the amended C6 at concrete kinds. -/
theorem splitLabel_characterization_witness :
    splitLabel "plainkind".toList = "plainkind".toList ∧
    splitLabel "fastqc_plot_raw:per_base_quality".toList
      = "per_base_quality".toList := by
  have h1 := (splitLabel_characterization "plainkind".toList).1 (by decide)
  have h2 := (splitLabel_characterization "fastqc_plot_raw:per_base_quality".toList).2
    "fastqc_plot_raw".toList "per_base_quality".toList (by decide) (by decide)
  exact ⟨h1.1, by rw [h2]; decide⟩

/-! ## Claim C2: percent-encoding round trip -/

theorem hexDigitVal_hexDigitCode : ∀ n, n < 16 → hexDigitVal (hexDigitCode n) = some n := by
  decide

theorem percentDecodeBytes_escape (b : Nat) (hb : b < 256) (rest : List Nat) :
    percentDecodeBytes (percentEscapeByte b ++ rest) =
      (percentDecodeBytes rest).map fun t => b :: t := by
  have h1 : b / 16 < 16 := by omega
  have h2 : b % 16 < 16 := by omega
  have e : 16 * (b / 16) + b % 16 = b := by omega
  simp [percentEscapeByte, percentDecodeBytes,
    hexDigitVal_hexDigitCode _ h1, hexDigitVal_hexDigitCode _ h2, e]

theorem percentDecodeBytes_cons (c : Nat) (rest : List Nat) :
    percentDecodeBytes (c :: rest) =
      if c = 37 then
        match rest with
        | h :: l :: rest2 =>
          match hexDigitVal h, hexDigitVal l with
          | some hv, some lv => (percentDecodeBytes rest2).map fun t => (16 * hv + lv) :: t
          | _, _ => none
        | _ => none
      else (percentDecodeBytes rest).map fun t => c :: t := by
  match rest with
  | [] => rfl
  | [h] => rfl
  | h :: l :: t => rfl

theorem percentDecodeBytes_lit (c : Nat) (hc : c ≠ 37) (rest : List Nat) :
    percentDecodeBytes (c :: rest) = (percentDecodeBytes rest).map fun t => c :: t := by
  rw [percentDecodeBytes_cons, if_neg hc]

theorem percentDecodeBytes_escapes (bs : List Nat) (hbs : ∀ b ∈ bs, b < 256)
    (rest : List Nat) :
    percentDecodeBytes (bs.flatMap percentEscapeByte ++ rest) =
      (percentDecodeBytes rest).map fun t => bs ++ t := by
  induction bs with
  | nil => simp
  | cons b bs ih =>
    have hb : b < 256 := hbs b (by simp)
    have hbs' : ∀ x ∈ bs, x < 256 := fun x hx => hbs x (by simp [hx])
    rw [List.flatMap_cons, List.append_assoc, percentDecodeBytes_escape b hb, ih hbs']
    cases percentDecodeBytes rest <;> simp

theorem utf8EncodeChar_lt_256 (c : Nat) (hc : c < 1114112) :
    ∀ b ∈ utf8EncodeChar c, b < 256 := by
  intro b hb
  unfold utf8EncodeChar at hb
  split_ifs at hb with h1 h2 h3 <;> simp at hb <;> omega

theorem utf8DecodeBytes_cons (b0 : Nat) (rest : List Nat) :
    utf8DecodeBytes (b0 :: rest) =
      (if b0 < 128 then (utf8DecodeBytes rest).map fun cs => b0 :: cs
      else if b0 < 192 then none
      else if b0 < 224 then
        match rest with
        | b1 :: rest2 =>
          if b1 / 64 = 2 then
            (utf8DecodeBytes rest2).map fun cs => ((b0 - 192) * 64 + (b1 - 128)) :: cs
          else none
        | [] => none
      else if b0 < 240 then
        match rest with
        | b1 :: b2 :: rest3 =>
          if b1 / 64 = 2 ∧ b2 / 64 = 2 then
            (utf8DecodeBytes rest3).map fun cs =>
              ((b0 - 224) * 4096 + (b1 - 128) * 64 + (b2 - 128)) :: cs
          else none
        | _ => none
      else if b0 < 248 then
        match rest with
        | b1 :: b2 :: b3 :: rest4 =>
          if b1 / 64 = 2 ∧ b2 / 64 = 2 ∧ b3 / 64 = 2 then
            (utf8DecodeBytes rest4).map fun cs =>
              ((b0 - 240) * 262144 + (b1 - 128) * 4096 + (b2 - 128) * 64 + (b3 - 128)) :: cs
          else none
        | _ => none
      else none) := by
  match rest with
  | [] => rfl
  | [b1] => rfl
  | [b1, b2] => rfl
  | b1 :: b2 :: b3 :: t => rfl

theorem utf8DecodeBytes_encodeChar (c : Nat) (hc : c < 1114112) (rest : List Nat) :
    utf8DecodeBytes (utf8EncodeChar c ++ rest) =
      (utf8DecodeBytes rest).map fun cs => c :: cs := by
  by_cases h1 : c < 128
  · have henc : utf8EncodeChar c ++ rest = c :: rest := by
      simp [utf8EncodeChar, h1]
    rw [henc, utf8DecodeBytes_cons, if_pos h1]
  · by_cases h2 : c < 2048
    · have henc : utf8EncodeChar c ++ rest = (192 + c / 64) :: (128 + c % 64) :: rest := by
        simp [utf8EncodeChar, h1, h2]
      have e0 : ¬ 192 + c / 64 < 128 := by omega
      have e1 : ¬ 192 + c / 64 < 192 := by omega
      have e2 : 192 + c / 64 < 224 := by omega
      have e3 : (128 + c % 64) / 64 = 2 := by omega
      have e4 : (192 + c / 64 - 192) * 64 + (128 + c % 64 - 128) = c := by omega
      have f : c / 64 * 64 + c % 64 = c := by omega
      rw [henc, utf8DecodeBytes_cons]
      simp [e0, e1, e2, e3, e4, f]
    · by_cases h3 : c < 65536
      · have henc : utf8EncodeChar c ++ rest =
            (224 + c / 4096) :: (128 + c / 64 % 64) :: (128 + c % 64) :: rest := by
          simp [utf8EncodeChar, h1, h2, h3]
        have e0 : ¬ 224 + c / 4096 < 128 := by omega
        have e1 : ¬ 224 + c / 4096 < 192 := by omega
        have e2 : ¬ 224 + c / 4096 < 224 := by omega
        have e3 : 224 + c / 4096 < 240 := by omega
        have e4 : (128 + c / 64 % 64) / 64 = 2 := by omega
        have e5 : (128 + c % 64) / 64 = 2 := by omega
        have e6 : (224 + c / 4096 - 224) * 4096 + (128 + c / 64 % 64 - 128) * 64
            + (128 + c % 64 - 128) = c := by omega
        have f : c / 4096 * 4096 + c / 64 % 64 * 64 + c % 64 = c := by omega
        rw [henc, utf8DecodeBytes_cons]
        simp [e0, e1, e2, e3, e4, e5, e6, f]
      · have henc : utf8EncodeChar c ++ rest =
            (240 + c / 262144) :: (128 + c / 4096 % 64) :: (128 + c / 64 % 64)
              :: (128 + c % 64) :: rest := by
          simp [utf8EncodeChar, h1, h2, h3]
        have e0 : ¬ 240 + c / 262144 < 128 := by omega
        have e1 : ¬ 240 + c / 262144 < 192 := by omega
        have e2 : ¬ 240 + c / 262144 < 224 := by omega
        have e3 : ¬ 240 + c / 262144 < 240 := by omega
        have e4 : 240 + c / 262144 < 248 := by omega
        have e5 : (128 + c / 4096 % 64) / 64 = 2 := by omega
        have e6 : (128 + c / 64 % 64) / 64 = 2 := by omega
        have e7 : (128 + c % 64) / 64 = 2 := by omega
        have e8 : (240 + c / 262144 - 240) * 262144 + (128 + c / 4096 % 64 - 128) * 4096
            + (128 + c / 64 % 64 - 128) * 64 + (128 + c % 64 - 128) = c := by omega
        have f : c / 262144 * 262144 + c / 4096 % 64 * 4096 + c / 64 % 64 * 64 + c % 64 = c := by
          omega
        rw [henc, utf8DecodeBytes_cons]
        simp [e0, e1, e2, e3, e4, e5, e6, e7, e8, f]

theorem utf8DecodeBytes_flatMap (s : List Nat) (hs : ∀ c ∈ s, c < 1114112) :
    utf8DecodeBytes (s.flatMap utf8EncodeChar) = some s := by
  induction s with
  | nil => rfl
  | cons c s ih =>
    have hc := hs c (by simp)
    have hs' : ∀ x ∈ s, x < 1114112 := fun x hx => hs x (by simp [hx])
    rw [List.flatMap_cons, utf8DecodeBytes_encodeChar c hc, ih hs']
    rfl

theorem encodeURIComponent_cons (c : Nat) (s : List Nat) :
    encodeURIComponent (c :: s) =
      (if uriUnreserved c then [c] else (utf8EncodeChar c).flatMap percentEscapeByte)
        ++ encodeURIComponent s := by
  simp [encodeURIComponent]

theorem uriUnreserved_facts (c : Nat) (h : uriUnreserved c = true) :
    c < 128 ∧ c ≠ 37 := by
  simp [uriUnreserved] at h
  omega

theorem percentDecodeBytes_encodeURI (s : List Nat) (hs : ∀ c ∈ s, c < 1114112) :
    percentDecodeBytes (encodeURIComponent s) = some (s.flatMap utf8EncodeChar) := by
  induction s with
  | nil => rfl
  | cons c s ih =>
    have hc := hs c (by simp)
    have hs' : ∀ x ∈ s, x < 1114112 := fun x hx => hs x (by simp [hx])
    by_cases hu : uriUnreserved c
    · obtain ⟨hlt, hne⟩ := uriUnreserved_facts c hu
      have henc : utf8EncodeChar c = [c] := by simp [utf8EncodeChar, hlt]
      rw [encodeURIComponent_cons, if_pos hu, List.singleton_append,
        percentDecodeBytes_lit c hne, ih hs', List.flatMap_cons, henc]
      rfl
    · rw [encodeURIComponent_cons, if_neg hu,
        percentDecodeBytes_escapes _ (utf8EncodeChar_lt_256 c hc), ih hs',
        List.flatMap_cons]
      rfl

theorem decodeURIComponent_encodeURIComponent (s : List Nat)
    (hs : ∀ c ∈ s, c < 1114112) :
    decodeURIComponent (encodeURIComponent s) = some s := by
  rw [decodeURIComponent, percentDecodeBytes_encodeURI s hs]
  simp [utf8DecodeBytes_flatMap s hs]

/-- C2: the retrieval URL built for an artifact path consists of a prefix,
the fixed `/artifact?path=` template, and the percent-encoded path, and
percent-decoding the encoded component yields the original path exactly.  The
hypothesis restricts the path to sequences of Unicode scalar values (below
`0x110000` and not surrogates), the only strings `encodeURIComponent` accepts
without throwing. -/
theorem makeArtifactUrl_roundTrip (base p : List Nat)
    (hp : ∀ c ∈ p, c < 1114112 ∧ (c < 55296 ∨ 57344 ≤ c)) :
    (∃ front, makeArtifactUrl base p =
      front ++ ("/artifact?path=".toList.map Char.toNat) ++ encodeURIComponent p) ∧
    decodeURIComponent (encodeURIComponent p) = some p := by
  constructor
  · refine ⟨base ++ ("/api".toList.map Char.toNat), ?_⟩
    have hT : ("/api/artifact?path=".toList.map Char.toNat) =
        ("/api".toList.map Char.toNat) ++ ("/artifact?path=".toList.map Char.toNat) := by
      decide
    rw [makeArtifactUrl, hT]
    simp [List.append_assoc]
  · exact decodeURIComponent_encodeURIComponent p fun c hc => (hp c hc).1

/-- Witness for C2: a path with a reserved `/`, a space, and non-ASCII
characters round-trips through the encoder. -/
theorem makeArtifactUrl_roundTrip_witness :
    decodeURIComponent
        (encodeURIComponent [115, 97, 109, 112, 108, 101, 47, 97, 32, 233, 8364, 128169])
      = some [115, 97, 109, 112, 108, 101, 47, 97, 32, 233, 8364, 128169] :=
  (makeArtifactUrl_roundTrip [] [115, 97, 109, 112, 108, 101, 47, 97, 32, 233, 8364, 128169]
    (by decide)).2

end RnaseqQC
